import Mathlib

/-!
Shallow embedding of `src/pandas_questions.py`.

Tables are Lists of records; pandas DataFrames of the pipeline are modelled
column-faithfully.  Ballot counts are natural numbers (Python ints, never
negative in this data model); the ratio column is modelled in ℚ.

Helper functions re-implement, with structural recursion, the Python string
primitives the source relies on: str.isalpha (line 90), int(...) conversion
with fallback (lines 98-101), and the lexicographic ordering of group keys
that pandas groupby uses (line 127).
-/

/-- Python's str.isalpha(): true iff the string is nonempty and every character
is alphabetic.  (Python accepts all Unicode letters; the department codes this
program sees are ASCII, which Char.isAlpha covers.) -/
def pyIsAlpha (s : String) : Bool :=
  !s.data.isEmpty && s.data.all Char.isAlpha

/-- Accumulate the value of a decimal digit string, most significant first. -/
def digitsVal : List Char → ℕ → ℕ
  | [], acc => acc
  | c :: cs, acc => digitsVal cs (acc * 10 + (c.toNat - 48))

/-- Python's int(s) on the forms this data can contain: an optional sign
followed by one or more ASCII digits; anything else raises (modelled none).
(Python also tolerates surrounding whitespace, underscores between digits and
non-ASCII digits; no department code has those forms.) -/
def pyInt? (s : String) : Option ℤ :=
  match s.data with
  | [] => none
  | '-' :: cs =>
      if !cs.isEmpty && cs.all Char.isDigit then some (-(digitsVal cs 0 : ℤ)) else none
  | '+' :: cs =>
      if !cs.isEmpty && cs.all Char.isDigit then some (digitsVal cs 0) else none
  | cs =>
      if cs.all Char.isDigit then some (digitsVal cs 0) else none

/-- Decimal digits of n (most significant first); the first argument is fuel,
n itself always suffices since the digit count is at most n. -/
def natDigits : ℕ → ℕ → List Char
  | 0, _ => []
  | fuel + 1, n =>
      if n = 0 then [] else natDigits fuel (n / 10) ++ [Char.ofNat (48 + n % 10)]

/-- Python's str(n) for a natural number. -/
def natToString (n : ℕ) : String :=
  if n = 0 then "0" else ⟨natDigits n n⟩

/-- Python's str(n) for an integer. -/
def intToString : ℤ → String
  | Int.ofNat m => natToString m
  | Int.negSucc m => "-" ++ natToString (m + 1)

/-- Lines 97-101: dep_code = str(int(dep_code)) when int() succeeds, the
original string when it raises (the bare except: pass). -/
def normalizeCode (s : String) : String :=
  match pyInt? s with
  | some n => intToString n
  | none => s

/-- Codepoint order on characters. -/
def charLt (a b : Char) : Bool := a.toNat < b.toNat

/-- Lexicographic order on character lists, as Python compares strings. -/
def strLtData : List Char → List Char → Bool
  | [], [] => false
  | [], _ :: _ => true
  | _ :: _, [] => false
  | a :: as, b :: bs => if a = b then strLtData as bs else charLt a b

/-- String order used for pandas group keys. -/
def strLe (s t : String) : Bool := !strLtData t.data s.data

/-- Insert into a sorted list of strings. -/
def insertSorted (s : String) : List String → List String
  | [] => [s]
  | t :: ts => if strLe s t then s :: t :: ts else t :: insertSorted s ts

/-- Sort a list of strings ascending (insertion sort). -/
def sortStrings : List String → List String
  | [] => []
  | s :: ss => insertSorted s (sortStrings ss)

/-- A row of regions.csv (columns used by the program: code, name). -/
structure Region where
  code : String
  name : String
deriving DecidableEq

/-- A row of departments.csv (columns used: region_code, code, name). -/
structure Department where
  region_code : String
  code : String
  name : String
deriving DecidableEq

/-- A row of the lines 56-61 DataFrame: columns code_reg, name_reg, code_dep,
name_dep. -/
structure RegionDepartmentRecord where
  code_reg : String
  name_reg : String
  code_dep : String
  name_dep : String
deriving DecidableEq

/-- Line 56-61: the initial record for one department: code_reg from
region_code, name_reg initialised to the empty string, code_dep and name_dep
copied. -/
def initRecord (d : Department) : RegionDepartmentRecord :=
  ⟨d.region_code, "", d.code, d.name⟩

/-- Lines 63-64 seen from one record: the region row overwrites name_reg when
its code equals the record's code_reg. -/
def stepRegion (rec : RegionDepartmentRecord) (r : Region) :
    RegionDepartmentRecord :=
  if rec.code_reg = r.code then { rec with name_reg := r.name } else rec

/-- Lines 63-64 for one region row: set name_reg on every record whose
code_reg equals the region's code. -/
def applyRegion (df : List RegionDepartmentRecord) (r : Region) :
    List RegionDepartmentRecord :=
  df.map fun rec => stepRegion rec r

/-- The lines 62-64 loop seen from one record: fold all region rows over it. -/
def finalizeRegion (regions : List Region) (rec : RegionDepartmentRecord) :
    RegionDepartmentRecord :=
  regions.foldl stepRegion rec

/-- merge_regions_and_departments (lines 56-66): build one record per
department, then loop over regions filling name_reg in place. -/
def mergeRegionsAndDepartments (regions : List Region)
    (departments : List Department) : List RegionDepartmentRecord :=
  regions.foldl applyRegion (departments.map initRecord)

/-- A row of referendum.csv: columns Department code, Department name,
Town code, Town name, Registered, Abstentions, Null, Choice A, Choice B. -/
structure BallotRow where
  departmentCode : String
  departmentName : String
  townCode : String
  townName : String
  registered : ℕ
  abstentions : ℕ
  nulls : ℕ
  choiceA : ℕ
  choiceB : ℕ
deriving DecidableEq

/-- A row of the merge_referendum_and_areas output: the original referendum
columns plus the four columns of regions_and_departments (line 94). -/
structure EnrichedBallotRow where
  row : BallotRow
  code_reg : String
  name_reg : String
  code_dep : String
  name_dep : String
deriving DecidableEq

/-- Lines 89-90: the distinct department codes of the referendum, keeping
those that are not purely alphabetic.  (np.unique also sorts the codes; only
membership in this list is used, at line 91.) -/
def depCodes (referendum : List BallotRow) : List String :=
  ((referendum.map (·.departmentCode)).dedup).filter fun c => !pyIsAlpha c

/-- Line 95: the four new columns start as empty strings. -/
def initEnriched (b : BallotRow) : EnrichedBallotRow := ⟨b, "", "", "", ""⟩

/-- Lines 96-106 for one regions_and_departments row: rows of df whose
Department code equals the normalized code_dep receive the record's four
column values (the canonical, un-normalized code_dep among them). -/
def applyRecord (rec : RegionDepartmentRecord) (e : EnrichedBallotRow) :
    EnrichedBallotRow :=
  if e.row.departmentCode = normalizeCode rec.code_dep then
    { e with code_dep := rec.code_dep, name_dep := rec.name_dep,
             code_reg := rec.code_reg, name_reg := rec.name_reg }
  else e

/-- merge_referendum_and_areas (lines 88-108): keep the referendum rows whose
Department code is in depCodes, add the four empty columns, then loop over
regions_and_departments overwriting them where the normalized code matches. -/
def mergeReferendumAndAreas (referendum : List BallotRow)
    (rad : List RegionDepartmentRecord) : List EnrichedBallotRow :=
  let df := referendum.filter fun b => b.departmentCode ∈ depCodes referendum
  rad.foldl (fun df rec => df.map (applyRecord rec)) (df.map initEnriched)

/-- The lines 96-106 loop seen from one df row: fold all
regions_and_departments rows over it. -/
def finalizeRecord (rad : List RegionDepartmentRecord) (e : EnrichedBallotRow) :
    EnrichedBallotRow :=
  rad.foldl (fun e rec => applyRecord rec e) e

/-- A row of the compute_referendum_result_by_regions output after the line
131 column selection: name_reg, Registered, Abstentions, Null, Choice A,
Choice B. -/
structure RegionResult where
  name_reg : String
  registered : ℕ
  abstentions : ℕ
  nulls : ℕ
  choiceA : ℕ
  choiceB : ℕ
deriving DecidableEq

/-- The column list of line 131; it is the full column set of the returned
DataFrame. -/
def computeResultColumns : List String :=
  ["name_reg", "Registered", "Abstentions", "Null", "Choice A", "Choice B"]

/-- The group keys of line 127: the distinct name_reg values, which pandas
groupby returns in ascending order. -/
def groupKeys (rows : List EnrichedBallotRow) : List String :=
  sortStrings ((rows.map (·.name_reg)).dedup)

/-- The groupby(...).sum() aggregate of one numeric column over one group. -/
def groupSum (f : EnrichedBallotRow → ℕ) (k : String)
    (rows : List EnrichedBallotRow) : ℕ :=
  ((rows.filter fun e => e.name_reg = k).map f).sum

/-- compute_referendum_result_by_regions (lines 127-131): group by name_reg,
sum each column, move the group key back into a name_reg column and keep the
six columns of computeResultColumns.  (The line 127 sums of the remaining
columns are dropped by the line 131 selection.) -/
def computeReferendumResultByRegions (rows : List EnrichedBallotRow) :
    List RegionResult :=
  (groupKeys rows).map fun k =>
    ⟨k, groupSum (·.row.registered) k rows,
        groupSum (·.row.abstentions) k rows,
        groupSum (·.row.nulls) k rows,
        groupSum (·.row.choiceA) k rows,
        groupSum (·.row.choiceB) k rows⟩

/-- A row of regions.geojson as read at line 152 (columns code, nom,
geometry); the geometry payload is opaque to the program, so its type is a
parameter. -/
structure RegionGeometry (γ : Type) where
  code : String
  nom : String
  geometry : γ

/-- Line 159: region_map.loc[region_map[nom] == name][geometry].values[0],
the unchecked first-match lookup; none models the IndexError raised when no
row matches. -/
def lookupGeometry {γ : Type} (region_map : List (RegionGeometry γ))
    (name : String) : Option γ :=
  ((region_map.filter fun g => g.nom = name).map (·.geometry)).head?

/-- Line 161: the ratio column, Choice A / (Choice B + Choice A), modelled in
ℚ. -/
def ratio (choiceA choiceB : ℕ) : ℚ :=
  (choiceA : ℚ) / ((choiceB : ℚ) + (choiceA : ℚ))

/-- A row of the GeoDataFrame returned by plot_referendum_map: the result
columns plus geometry and ratio. -/
structure RenderedRegionResult (γ : Type) where
  geometry : γ
  name_reg : String
  registered : ℕ
  abstentions : ℕ
  nulls : ℕ
  choiceA : ℕ
  choiceB : ℕ
  ratio : ℚ

/-- plot_referendum_map (lines 152-165) without the drawing side effects:
attach to every result row the first geometry whose nom equals its name_reg
(lines 155-159) and the ratio column (line 161).  The row loop's values[0] on
a name with no geometry raises IndexError, modelled by a none result. -/
def plotReferendumMap {γ : Type} (region_map : List (RegionGeometry γ)) :
    List RegionResult → Option (List (RenderedRegionResult γ))
  | [] => some []
  | r :: rs =>
      match lookupGeometry region_map r.name_reg,
            plotReferendumMap region_map rs with
      | some g, some out =>
          some (⟨g, r.name_reg, r.registered, r.abstentions, r.nulls,
                 r.choiceA, r.choiceB, ratio r.choiceA r.choiceB⟩ :: out)
      | _, _ => none

/-! Characterization lemmas for the two in-place update loops. -/

theorem insertSorted_perm (s : String) (l : List String) :
    (insertSorted s l).Perm (s :: l) := by
  induction l with
  | nil => simp [insertSorted]
  | cons t ts ih =>
    by_cases h : strLe s t = true
    · simp [insertSorted, h]
    · simp only [insertSorted, h, Bool.false_eq_true, if_false]
      exact (ih.cons t).trans (List.Perm.swap s t ts)

theorem sortStrings_perm (l : List String) : (sortStrings l).Perm l := by
  induction l with
  | nil => exact List.Perm.refl []
  | cons s ss ih =>
    exact (insertSorted_perm s (sortStrings ss)).trans (ih.cons s)

theorem foldl_map_comm {α β : Type} (step : β → α → β) (l : List α) :
    ∀ df : List β,
      l.foldl (fun d a => d.map fun x => step x a) df
        = df.map fun x => l.foldl step x := by
  induction l with
  | nil => intro df; simp
  | cons a l ih =>
    intro df
    simp only [List.foldl_cons]
    rw [ih, List.map_map]
    rfl

theorem mergeRegionsAndDepartments_eq_map (regions : List Region)
    (departments : List Department) :
    mergeRegionsAndDepartments regions departments
      = departments.map fun d => finalizeRegion regions (initRecord d) := by
  show regions.foldl (fun d a => d.map fun x => stepRegion x a)
        (departments.map initRecord) = _
  rw [foldl_map_comm stepRegion, List.map_map]
  rfl

theorem stepRegion_code_reg (rec : RegionDepartmentRecord) (r : Region) :
    (stepRegion rec r).code_reg = rec.code_reg := by
  unfold stepRegion; split <;> rfl

theorem finalizeRegion_code_reg (regions : List Region) :
    ∀ rec, (finalizeRegion regions rec).code_reg = rec.code_reg := by
  induction regions with
  | nil => intro rec; rfl
  | cons r rs ih =>
    intro rec
    show (finalizeRegion rs (stepRegion rec r)).code_reg = _
    rw [ih, stepRegion_code_reg]

theorem finalizeRegion_code_dep (regions : List Region) :
    ∀ rec, (finalizeRegion regions rec).code_dep = rec.code_dep := by
  induction regions with
  | nil => intro rec; rfl
  | cons r rs ih =>
    intro rec
    show (finalizeRegion rs (stepRegion rec r)).code_dep = _
    rw [ih]
    unfold stepRegion; split <;> rfl

theorem finalizeRegion_name_dep (regions : List Region) :
    ∀ rec, (finalizeRegion regions rec).name_dep = rec.name_dep := by
  induction regions with
  | nil => intro rec; rfl
  | cons r rs ih =>
    intro rec
    show (finalizeRegion rs (stepRegion rec r)).name_dep = _
    rw [ih]
    unfold stepRegion; split <;> rfl

theorem finalizeRegion_no_match (regions : List Region) :
    ∀ rec, (∀ r ∈ regions, r.code ≠ rec.code_reg) →
      finalizeRegion regions rec = rec := by
  induction regions with
  | nil => intro rec _; rfl
  | cons r rs ih =>
    intro rec h
    have hstep : stepRegion rec r = rec := by
      unfold stepRegion
      rw [if_neg]
      intro hc
      exact h r (List.mem_cons_self r rs) hc.symm
    show finalizeRegion rs (stepRegion rec r) = rec
    rw [hstep]
    exact ih rec fun q hq => h q (List.mem_cons_of_mem r hq)

theorem finalizeRegion_name_of_match (regions : List Region) :
    ∀ rec, (∃ r ∈ regions, r.code = rec.code_reg) →
      ∃ r ∈ regions, r.code = rec.code_reg
        ∧ (finalizeRegion regions rec).name_reg = r.name := by
  induction regions with
  | nil =>
    intro rec h
    obtain ⟨r, hr, _⟩ := h
    exact absurd hr (List.not_mem_nil r)
  | cons r rs ih =>
    intro rec h
    have hpres : (stepRegion rec r).code_reg = rec.code_reg :=
      stepRegion_code_reg rec r
    by_cases hrs : ∃ q ∈ rs, q.code = rec.code_reg
    · obtain ⟨q, hq, hqc, hname⟩ := ih (stepRegion rec r) (by rw [hpres]; exact hrs)
      exact ⟨q, List.mem_cons_of_mem r hq, hqc.trans hpres, hname⟩
    · obtain ⟨q, hq, hqc⟩ := h
      rcases List.mem_cons.mp hq with rfl | hq2
      · have hstep : stepRegion rec q = { rec with name_reg := q.name } := by
          unfold stepRegion
          rw [if_pos hqc.symm]
        refine ⟨q, List.mem_cons_self q rs, hqc, ?_⟩
        show (finalizeRegion rs (stepRegion rec q)).name_reg = q.name
        rw [hstep, finalizeRegion_no_match rs _ ?_]
        intro p hp hpc
        exact hrs ⟨p, hp, hpc⟩
      · exact absurd ⟨q, hq2, hqc⟩ hrs

theorem finalizeRegion_name_unique (regions : List Region)
    (rec : RegionDepartmentRecord) (hnd : (regions.map (·.code)).Nodup)
    (r : Region) (hr : r ∈ regions) (hrc : r.code = rec.code_reg) :
    (finalizeRegion regions rec).name_reg = r.name := by
  obtain ⟨q, hq, hqc, hname⟩ :=
    finalizeRegion_name_of_match regions rec ⟨r, hr, hrc⟩
  have : q = r := List.inj_on_of_nodup_map hnd hq hr (hqc.trans hrc.symm)
  rw [hname, this]

theorem mem_depCodes (referendum : List BallotRow) (c : String) :
    c ∈ depCodes referendum
      ↔ c ∈ referendum.map (·.departmentCode) ∧ pyIsAlpha c = false := by
  unfold depCodes
  rw [List.mem_filter, List.mem_dedup]
  simp

theorem filter_mem_depCodes (referendum : List BallotRow) :
    (referendum.filter fun b => b.departmentCode ∈ depCodes referendum)
      = referendum.filter fun b => !pyIsAlpha b.departmentCode := by
  apply List.filter_congr
  intro b hb
  have hmem : b.departmentCode ∈ referendum.map (·.departmentCode) :=
    List.mem_map_of_mem _ hb
  by_cases h : pyIsAlpha b.departmentCode = true
  · simp [mem_depCodes, h]
  · simp only [Bool.not_eq_true] at h
    simp [mem_depCodes, h, hmem]

theorem mergeReferendumAndAreas_eq_map (referendum : List BallotRow)
    (rad : List RegionDepartmentRecord) :
    mergeReferendumAndAreas referendum rad
      = (referendum.filter fun b => !pyIsAlpha b.departmentCode).map
          fun b => finalizeRecord rad (initEnriched b) := by
  show rad.foldl (fun d a => d.map fun x => applyRecord a x)
        ((referendum.filter fun b =>
          b.departmentCode ∈ depCodes referendum).map initEnriched) = _
  rw [filter_mem_depCodes,
      foldl_map_comm (fun e rec => applyRecord rec e) rad, List.map_map]
  rfl

theorem applyRecord_row (rec : RegionDepartmentRecord) (e : EnrichedBallotRow) :
    (applyRecord rec e).row = e.row := by
  unfold applyRecord; split <;> rfl

theorem finalizeRecord_row (rad : List RegionDepartmentRecord) :
    ∀ e, (finalizeRecord rad e).row = e.row := by
  induction rad with
  | nil => intro e; rfl
  | cons rec rs ih =>
    intro e
    show (finalizeRecord rs (applyRecord rec e)).row = _
    rw [ih, applyRecord_row]

theorem finalizeRecord_no_match (rad : List RegionDepartmentRecord) :
    ∀ e, (∀ rec ∈ rad, normalizeCode rec.code_dep ≠ e.row.departmentCode) →
      finalizeRecord rad e = e := by
  induction rad with
  | nil => intro e _; rfl
  | cons rec rs ih =>
    intro e h
    have hstep : applyRecord rec e = e := by
      unfold applyRecord
      rw [if_neg]
      intro hc
      exact h rec (List.mem_cons_self rec rs) hc.symm
    show finalizeRecord rs (applyRecord rec e) = e
    rw [hstep]
    exact ih e fun q hq => h q (List.mem_cons_of_mem rec hq)

/-! Lemmas about the groupby aggregation. -/

theorem sum_map_filter_add {α : Type} (p : α → Bool) (f : α → ℕ) (l : List α) :
    ((l.filter p).map f).sum + ((l.filter fun a => !p a).map f).sum
      = (l.map f).sum := by
  induction l with
  | nil => rfl
  | cons a l ih =>
    by_cases h : p a = true
    · simp only [List.filter_cons, h, Bool.not_true, if_true, if_false,
        Bool.false_eq_true, List.map_cons, List.sum_cons]
      omega
    · simp only [Bool.not_eq_true] at h
      simp only [List.filter_cons, h, Bool.not_false, if_true, if_false,
        Bool.false_eq_true, List.map_cons, List.sum_cons]
      omega

theorem sum_groupSum (f : EnrichedBallotRow → ℕ) (keys : List String) :
    ∀ rows : List EnrichedBallotRow, keys.Nodup →
      (∀ e ∈ rows, e.name_reg ∈ keys) →
      (keys.map fun k => groupSum f k rows).sum = (rows.map f).sum := by
  induction keys with
  | nil =>
    intro rows _ hall
    cases rows with
    | nil => rfl
    | cons e es => exact absurd (hall e (List.mem_cons_self e es)) (List.not_mem_nil _)
  | cons k ks ih =>
    intro rows hnd hall
    have hnd2 : ks.Nodup := (List.nodup_cons.mp hnd).2
    have hk : k ∉ ks := (List.nodup_cons.mp hnd).1
    have hsplit := sum_map_filter_add (fun e => e.name_reg = k) f rows
    have h1 : ∀ k2 ∈ ks,
        groupSum f k2 rows
          = groupSum f k2 (rows.filter fun e => !(e.name_reg = k : Bool)) := by
      intro k2 hk2
      unfold groupSum
      rw [List.filter_filter]
      congr 1
      congr 1
      apply List.filter_congr
      intro e _
      by_cases he : e.name_reg = k2
      · have hne : ¬k2 = k := fun hek => hk (hek ▸ hk2)
        simp [he, hne]
      · simp [he]
    have h2 : ∀ e ∈ (rows.filter fun e => !(e.name_reg = k : Bool)),
        e.name_reg ∈ ks := by
      intro e he
      have := List.mem_filter.mp he
      rcases List.mem_cons.mp (hall e this.1) with h | h
      · simp [h] at this
      · exact h
    calc ((k :: ks).map fun k2 => groupSum f k2 rows).sum
        = groupSum f k rows + (ks.map fun k2 => groupSum f k2 rows).sum := by
          simp
      _ = groupSum f k rows
            + (ks.map fun k2 =>
                groupSum f k2 (rows.filter fun e => !(e.name_reg = k : Bool))).sum := by
          rw [List.map_congr_left h1]
      _ = groupSum f k rows
            + ((rows.filter fun e => !(e.name_reg = k : Bool)).map f).sum := by
          rw [ih _ hnd2 h2]
      _ = (rows.map f).sum := hsplit

theorem groupKeys_nodup (rows : List EnrichedBallotRow) :
    (groupKeys rows).Nodup :=
  (sortStrings_perm _).nodup_iff.mpr (List.nodup_dedup _)

theorem mem_groupKeys (rows : List EnrichedBallotRow) (k : String) :
    k ∈ groupKeys rows ↔ k ∈ rows.map (·.name_reg) := by
  unfold groupKeys
  rw [(sortStrings_perm _).mem_iff, List.mem_dedup]

theorem compute_map_name (rows : List EnrichedBallotRow) :
    (computeReferendumResultByRegions rows).map (·.name_reg) = groupKeys rows := by
  unfold computeReferendumResultByRegions
  rw [List.map_map]
  exact List.map_id _

/-- Every surviving row of merge_referendum_and_areas keeps a Department code
that is not purely alphabetic: the line 90 filter removed the others and the
lines 96-106 loop does not touch the Department code column. -/
theorem merge_rows_not_alpha (referendum : List BallotRow)
    (rad : List RegionDepartmentRecord) :
    ∀ e ∈ mergeReferendumAndAreas referendum rad,
      pyIsAlpha e.row.departmentCode = false := by
  intro e he
  rw [mergeReferendumAndAreas_eq_map] at he
  obtain ⟨b, hb, rfl⟩ := List.mem_map.mp he
  rw [finalizeRecord_row]
  simpa using (List.mem_filter.mp hb).2

/-- The line 161 ratio with the sum written A + B. -/
theorem ratio_eq_div (a b : ℕ) :
    ratio a b = (a : ℚ) / ((a : ℚ) + (b : ℚ)) := by
  unfold ratio
  rw [add_comm]

/-- The line 161 ratio lies in [0, 1] when at least one ballot was expressed. -/
theorem ratio_bounds (a b : ℕ) (h : 0 < a + b) :
    0 ≤ ratio a b ∧ ratio a b ≤ 1 := by
  unfold ratio
  have hpos : (0 : ℚ) < (b : ℚ) + (a : ℚ) := by
    have : 0 < b + a := by omega
    exact_mod_cast this
  constructor
  · apply div_nonneg _ hpos.le
    exact_mod_cast Nat.zero_le a
  · rw [div_le_one hpos]
    exact_mod_cast Nat.le_add_left a b

/-- C1: on the one-region / one-department / one-ballot-row example, the three
pipeline stages produce exactly one result row with regionName
Auvergne-Rhône-Alpes and counts 100/20/5/40/35 (the zero-padded department
code matches the unpadded ballot code via integer normalization), and the
ratio computed for those counts is 40/75. -/
theorem claim_C1 :
    computeReferendumResultByRegions
        (mergeReferendumAndAreas
          [⟨"1", "Ain", "1", "Bourg-en-Bresse", 100, 20, 5, 40, 35⟩]
          (mergeRegionsAndDepartments [⟨"84", "Auvergne-Rhône-Alpes"⟩]
            [⟨"84", "01", "Ain"⟩]))
      = [⟨"Auvergne-Rhône-Alpes", 100, 20, 5, 40, 35⟩]
    ∧ ratio 40 35 = 40 / 75 := by
  constructor
  · decide
  · unfold ratio
    norm_num

/-- C2: rows whose Department code is purely alphabetic are absent from the
merge_referendum_and_areas output: dropping them from the input changes
nothing, every output row has a non-alphabetic code, and consequently the
aggregated results are unchanged as well. -/
theorem claim_C2 (referendum : List BallotRow)
    (rad : List RegionDepartmentRecord) :
    (∀ e ∈ mergeReferendumAndAreas referendum rad,
        pyIsAlpha e.row.departmentCode = false)
    ∧ mergeReferendumAndAreas referendum rad
        = mergeReferendumAndAreas
            (referendum.filter fun b => !pyIsAlpha b.departmentCode) rad
    ∧ computeReferendumResultByRegions (mergeReferendumAndAreas referendum rad)
        = computeReferendumResultByRegions
            (mergeReferendumAndAreas
              (referendum.filter fun b => !pyIsAlpha b.departmentCode) rad) := by
  have h2 : mergeReferendumAndAreas referendum rad
      = mergeReferendumAndAreas
          (referendum.filter fun b => !pyIsAlpha b.departmentCode) rad := by
    rw [mergeReferendumAndAreas_eq_map, mergeReferendumAndAreas_eq_map]
    congr 1
    exact (List.filter_eq_self.mpr fun b hb => (List.mem_filter.mp hb).2).symm
  exact ⟨merge_rows_not_alpha referendum rad, h2, congrArg _ h2⟩

/-- C2 witness at a concrete table: the ZZ row is filtered out, the numeric
row survives and satisfies the conclusion. -/
theorem claim_C2_witness :
    pyIsAlpha (⟨⟨"1", "Ain", "1", "T", 5, 1, 0, 2, 2⟩, "", "", "", ""⟩ :
        EnrichedBallotRow).row.departmentCode = false
    ∧ mergeReferendumAndAreas
          [⟨"ZZ", "W", "1", "T", 10, 2, 1, 4, 3⟩,
           ⟨"1", "Ain", "1", "T", 5, 1, 0, 2, 2⟩] []
        = mergeReferendumAndAreas
            ([⟨"ZZ", "W", "1", "T", 10, 2, 1, 4, 3⟩,
              ⟨"1", "Ain", "1", "T", 5, 1, 0, 2, 2⟩].filter
              fun b => !pyIsAlpha b.departmentCode) [] :=
  ⟨(claim_C2 [⟨"ZZ", "W", "1", "T", 10, 2, 1, 4, 3⟩,
      ⟨"1", "Ain", "1", "T", 5, 1, 0, 2, 2⟩] []).1 _ (by decide),
   (claim_C2 [⟨"ZZ", "W", "1", "T", 10, 2, 1, 4, 3⟩,
      ⟨"1", "Ain", "1", "T", 5, 1, 0, 2, 2⟩] []).2.1⟩

/-- C3: merge_regions_and_departments yields one record per department row in
the original order; code_reg, code_dep and name_dep are copied from the
department, and when some region's code equals the department's region_code,
name_reg is the name of such a region (the unique one as soon as region codes
are distinct). -/
theorem claim_C3 (regions : List Region) (departments : List Department) :
    (mergeRegionsAndDepartments regions departments).length = departments.length
    ∧ ∀ (i : ℕ) (h : i < departments.length)
        (h2 : i < (mergeRegionsAndDepartments regions departments).length),
        ((mergeRegionsAndDepartments regions departments).get ⟨i, h2⟩).code_reg
            = (departments.get ⟨i, h⟩).region_code
        ∧ ((mergeRegionsAndDepartments regions departments).get ⟨i, h2⟩).code_dep
            = (departments.get ⟨i, h⟩).code
        ∧ ((mergeRegionsAndDepartments regions departments).get ⟨i, h2⟩).name_dep
            = (departments.get ⟨i, h⟩).name
        ∧ ((∃ r ∈ regions, r.code = (departments.get ⟨i, h⟩).region_code) →
            ∃ r ∈ regions, r.code = (departments.get ⟨i, h⟩).region_code
              ∧ ((mergeRegionsAndDepartments regions departments).get
                    ⟨i, h2⟩).name_reg = r.name)
        ∧ ((regions.map (·.code)).Nodup →
            ∀ r ∈ regions, r.code = (departments.get ⟨i, h⟩).region_code →
              ((mergeRegionsAndDepartments regions departments).get
                  ⟨i, h2⟩).name_reg = r.name) := by
  constructor
  · rw [mergeRegionsAndDepartments_eq_map]
    exact List.length_map _ _
  · intro i h h2
    have hget : (mergeRegionsAndDepartments regions departments).get ⟨i, h2⟩
        = finalizeRegion regions (initRecord (departments.get ⟨i, h⟩)) := by
      simp only [List.get_eq_getElem, mergeRegionsAndDepartments_eq_map,
        List.getElem_map]
    refine ⟨?_, ?_, ?_, ?_, ?_⟩
    · rw [hget, finalizeRegion_code_reg]; rfl
    · rw [hget, finalizeRegion_code_dep]; rfl
    · rw [hget, finalizeRegion_name_dep]; rfl
    · intro hex
      rw [hget]
      exact finalizeRegion_name_of_match regions
        (initRecord (departments.get ⟨i, h⟩)) hex
    · intro hnd r hr hrc
      rw [hget]
      exact finalizeRegion_name_unique regions
        (initRecord (departments.get ⟨i, h⟩)) hnd r hr hrc

/-- C3 witness on the example tables: every hypothesis of claim_C3.2
discharged at index 0, name_reg comes from the matching region. -/
theorem claim_C3_witness :
    ∃ r ∈ [(⟨"84", "Auvergne-Rhône-Alpes"⟩ : Region)], r.code = "84"
      ∧ ((mergeRegionsAndDepartments [⟨"84", "Auvergne-Rhône-Alpes"⟩]
            [⟨"84", "01", "Ain"⟩]).get ⟨0, by decide⟩).name_reg = r.name :=
  ((claim_C3 [⟨"84", "Auvergne-Rhône-Alpes"⟩] [⟨"84", "01", "Ain"⟩]).2
      0 (by decide) (by decide)).2.2.2.1
    ⟨⟨"84", "Auvergne-Rhône-Alpes"⟩, by decide, rfl⟩

/-- C4: the groupby aggregation conserves the total of the Registered column,
and produces exactly one row per distinct name_reg value occurring in the
input (pairwise-distinct output names whose set is the set of input names). -/
theorem claim_C4 (rows : List EnrichedBallotRow) :
    ((computeReferendumResultByRegions rows).map (·.registered)).sum
        = (rows.map (·.row.registered)).sum
    ∧ ((computeReferendumResultByRegions rows).map (·.name_reg)).Nodup
    ∧ ∀ k : String,
        (k ∈ (computeReferendumResultByRegions rows).map (·.name_reg)
          ↔ k ∈ rows.map (·.name_reg)) := by
  refine ⟨?_, ?_, ?_⟩
  · have hmr : (computeReferendumResultByRegions rows).map (·.registered)
        = (groupKeys rows).map fun k => groupSum (·.row.registered) k rows := by
      unfold computeReferendumResultByRegions
      rw [List.map_map]
      rfl
    rw [hmr]
    exact sum_groupSum _ _ rows (groupKeys_nodup rows)
      fun e he => (mem_groupKeys rows _).mpr (List.mem_map_of_mem _ he)
  · rw [compute_map_name]
    exact groupKeys_nodup rows
  · intro k
    rw [compute_map_name]
    exact mem_groupKeys rows k

/-- C5: every row of the GeoDataFrame built by plot_referendum_map carries
ratio = choiceA / (choiceA + choiceB), which lies in [0, 1] as soon as
choiceA + choiceB > 0. -/
theorem claim_C5 {γ : Type} (region_map : List (RegionGeometry γ)) :
    ∀ (results : List RegionResult) (out : List (RenderedRegionResult γ)),
      plotReferendumMap region_map results = some out →
      ∀ rr ∈ out,
        rr.ratio = (rr.choiceA : ℚ) / ((rr.choiceA : ℚ) + (rr.choiceB : ℚ))
        ∧ (0 < rr.choiceA + rr.choiceB → 0 ≤ rr.ratio ∧ rr.ratio ≤ 1) := by
  intro results
  induction results with
  | nil =>
    intro out h rr hrr
    obtain rfl : ([] : List (RenderedRegionResult γ)) = out := Option.some.inj h
    exact absurd hrr (List.not_mem_nil rr)
  | cons r rs ih =>
    intro out h rr hrr
    simp only [plotReferendumMap] at h
    cases hg : lookupGeometry region_map r.name_reg with
    | none =>
      rw [hg] at h
      cases hp : plotReferendumMap region_map rs <;> rw [hp] at h <;> cases h
    | some g =>
      rw [hg] at h
      cases hp : plotReferendumMap region_map rs with
      | none => rw [hp] at h; cases h
      | some out2 =>
        rw [hp] at h
        obtain rfl := Option.some.inj h
        rcases List.mem_cons.mp hrr with rfl | htail
        · exact ⟨ratio_eq_div r.choiceA r.choiceB,
            fun hpos => ratio_bounds r.choiceA r.choiceB hpos⟩
        · exact ih out2 hp rr htail

/-- C5 witness: the theorem applied to a one-row map and result table, all
hypotheses discharged concretely. -/
theorem claim_C5_witness :
    0 < 3 + 2
    ∧ (0 ≤ ratio 3 2 ∧ ratio 3 2 ≤ 1) :=
  ⟨by decide,
    (claim_C5 [⟨"53", "Bretagne", (0 : ℕ)⟩] [⟨"Bretagne", 10, 1, 1, 3, 2⟩]
        [⟨0, "Bretagne", 10, 1, 1, 3, 2, ratio 3 2⟩] rfl
        ⟨0, "Bretagne", 10, 1, 1, 3, 2, ratio 3 2⟩
        (List.mem_singleton.mpr rfl)).2 (by decide)⟩

/-- C6 counterexample: the claim that each output row carries both the
regionName and the regionCode is false: the line 131 selection keeps name_reg
but no code_reg column. -/
theorem claim_C6_cex :
    ¬("name_reg" ∈ computeResultColumns ∧ "code_reg" ∈ computeResultColumns) := by
  decide

/-- C6 (amended): each output row of compute_referendum_result_by_regions
carries the regionName of its group together with the five summed count
columns; the regionCode column is dropped by the line 131 selection. -/
theorem claim_C6_thm (rows : List EnrichedBallotRow) :
    (∀ r ∈ computeReferendumResultByRegions rows,
        r.name_reg ∈ rows.map (·.name_reg)
        ∧ r.registered = groupSum (·.row.registered) r.name_reg rows
        ∧ r.abstentions = groupSum (·.row.abstentions) r.name_reg rows
        ∧ r.nulls = groupSum (·.row.nulls) r.name_reg rows
        ∧ r.choiceA = groupSum (·.row.choiceA) r.name_reg rows
        ∧ r.choiceB = groupSum (·.row.choiceB) r.name_reg rows)
    ∧ "name_reg" ∈ computeResultColumns
    ∧ "code_reg" ∉ computeResultColumns := by
  refine ⟨?_, by decide, by decide⟩
  intro r hr
  obtain ⟨k, hk, rfl⟩ := List.mem_map.mp hr
  exact ⟨(mem_groupKeys rows k).mp hk, rfl, rfl, rfl, rfl, rfl⟩

/-- C6 witness: the amended theorem applied to a concrete one-row table. -/
theorem claim_C6_thm_witness :
    (⟨"Auvergne-Rhône-Alpes", 100, 20, 5, 40, 35⟩ : RegionResult).name_reg
      ∈ ([⟨⟨"1", "Ain", "1", "T", 100, 20, 5, 40, 35⟩, "84",
            "Auvergne-Rhône-Alpes", "01", "Ain"⟩] :
          List EnrichedBallotRow).map (·.name_reg) :=
  ((claim_C6_thm [⟨⟨"1", "Ain", "1", "T", 100, 20, 5, 40, 35⟩, "84",
      "Auvergne-Rhône-Alpes", "01", "Ain"⟩]).1
    ⟨"Auvergne-Rhône-Alpes", 100, 20, 5, 40, 35⟩ (by decide)).1

/-- C7 counterexample: for a department whose region_code matches no region,
merge_regions_and_departments returns normally and the record's name_reg is
the empty string; no error is surfaced (the function is total on tables). -/
theorem claim_C7_cex :
    mergeRegionsAndDepartments [] [⟨"84", "01", "Ain"⟩]
        = [⟨"84", "", "01", "Ain"⟩]
    ∧ (mergeRegionsAndDepartments [] [⟨"84", "01", "Ain"⟩]).map (·.name_reg)
        = [""] := by
  decide

/-- C7 (amended): a department row whose region_code matches no region's code
silently keeps the empty-string name_reg it was initialised with at line 58;
merge_regions_and_departments raises nothing. -/
theorem claim_C7_thm (regions : List Region) (departments : List Department)
    (i : ℕ) (h : i < departments.length)
    (hno : ∀ r ∈ regions, r.code ≠ (departments.get ⟨i, h⟩).region_code) :
    ∃ h2 : i < (mergeRegionsAndDepartments regions departments).length,
      ((mergeRegionsAndDepartments regions departments).get ⟨i, h2⟩).name_reg
        = "" := by
  have hlen : (mergeRegionsAndDepartments regions departments).length
      = departments.length := by
    rw [mergeRegionsAndDepartments_eq_map]
    exact List.length_map _ _
  refine ⟨hlen ▸ h, ?_⟩
  have hget : (mergeRegionsAndDepartments regions departments).get ⟨i, hlen ▸ h⟩
      = finalizeRegion regions (initRecord (departments.get ⟨i, h⟩)) := by
    simp only [List.get_eq_getElem, mergeRegionsAndDepartments_eq_map,
      List.getElem_map]
  rw [hget, finalizeRegion_no_match regions (initRecord (departments.get ⟨i, h⟩))
    fun r hr => hno r hr]
  rfl

/-- C7 witness: the amended theorem at concrete tables whose region codes do
not match. -/
theorem claim_C7_thm_witness :
    ∃ h2 : 0 < (mergeRegionsAndDepartments [⟨"11", "Île-de-France"⟩]
        [⟨"84", "01", "Ain"⟩]).length,
      ((mergeRegionsAndDepartments [⟨"11", "Île-de-France"⟩]
          [⟨"84", "01", "Ain"⟩]).get ⟨0, h2⟩).name_reg = "" :=
  claim_C7_thm [⟨"11", "Île-de-France"⟩] [⟨"84", "01", "Ain"⟩] 0 (by decide)
    (by decide)

/-- C8 counterexample: the Corsican code 2A is neither purely alphabetic nor
purely numeric (even after normalization), yet its row survives
merge_referendum_and_areas. -/
theorem claim_C8_cex :
    mergeReferendumAndAreas
        [⟨"2A", "Corse-du-Sud", "1", "Ajaccio", 10, 1, 1, 4, 4⟩] []
        = [⟨⟨"2A", "Corse-du-Sud", "1", "Ajaccio", 10, 1, 1, 4, 4⟩,
            "", "", "", ""⟩]
    ∧ pyIsAlpha "2A" = false
    ∧ (normalizeCode "2A").data.all Char.isDigit = false := by
  decide

/-- C8 (amended): the line 90 filter excludes exactly the purely alphabetic
department codes, so every surviving row has a non-alphabetic code; codes that
are neither alphabetic nor numeric (such as 2A) do survive. -/
theorem claim_C8_thm (referendum : List BallotRow)
    (rad : List RegionDepartmentRecord) :
    ∀ e ∈ mergeReferendumAndAreas referendum rad,
      pyIsAlpha e.row.departmentCode = false :=
  merge_rows_not_alpha referendum rad

/-- C8 witness: the amended theorem applied to the surviving 2A row. -/
theorem claim_C8_thm_witness :
    pyIsAlpha (⟨⟨"2A", "Corse-du-Sud", "1", "Ajaccio", 10, 1, 1, 4, 4⟩,
        "", "", "", ""⟩ : EnrichedBallotRow).row.departmentCode = false :=
  claim_C8_thm [⟨"2A", "Corse-du-Sud", "1", "Ajaccio", 10, 1, 1, 4, 4⟩] [] _
    (by decide)

/-- The line 159 first-match lookup finds nothing when no geometry row's nom
equals the name. -/
theorem lookupGeometry_none {γ : Type} (region_map : List (RegionGeometry γ))
    (name : String) (h : ∀ g ∈ region_map, g.nom ≠ name) :
    lookupGeometry region_map name = none := by
  unfold lookupGeometry
  have hf : region_map.filter (fun g => g.nom = name) = [] := by
    rw [List.filter_eq_nil_iff]
    intro g hg
    simpa using h g hg
  rw [hf]
  rfl

/-- C9 counterexample: on a result row whose regionName matches no geometry,
plot_referendum_map does not report an UnresolvedReferenceError naming the
missing key; the unchecked values[0] access simply fails (modelled: the
lookup and the whole run yield bare none). -/
theorem claim_C9_cex :
    lookupGeometry ([] : List (RegionGeometry ℕ)) "Bretagne" = none
    ∧ plotReferendumMap ([] : List (RegionGeometry ℕ))
        [⟨"Bretagne", 10, 1, 1, 3, 2⟩] = none :=
  ⟨rfl, rfl⟩

/-- C9 (amended): whenever some result row's regionName equals no geometry
nom, plot_referendum_map aborts with no output at all (the IndexError of the
unchecked first-match access), rather than reporting which key was missing. -/
theorem claim_C9_thm {γ : Type} (region_map : List (RegionGeometry γ))
    (results : List RegionResult) (r : RegionResult) (hr : r ∈ results)
    (hno : ∀ g ∈ region_map, g.nom ≠ r.name_reg) :
    plotReferendumMap region_map results = none := by
  induction results with
  | nil => exact absurd hr (List.not_mem_nil r)
  | cons r2 rs ih =>
    rcases List.mem_cons.mp hr with rfl | hr2
    · have hl := lookupGeometry_none region_map r.name_reg hno
      cases hp : plotReferendumMap region_map rs <;>
        simp [plotReferendumMap, hl, hp]
    · have hrec := ih hr2
      cases hg : lookupGeometry region_map r2.name_reg <;>
        simp [plotReferendumMap, hg, hrec]

/-- C9 witness: the amended theorem at a concrete map missing the row's
region name. -/
theorem claim_C9_thm_witness :
    plotReferendumMap [⟨"53", "Bretagne", (0 : ℕ)⟩]
        [⟨"Normandie", 10, 1, 1, 3, 2⟩] = none :=
  claim_C9_thm [⟨"53", "Bretagne", (0 : ℕ)⟩] [⟨"Normandie", 10, 1, 1, 3, 2⟩]
    ⟨"Normandie", 10, 1, 1, 3, 2⟩ (List.mem_singleton.mpr rfl) (by decide)

/-- C10: a ballot row that passes the non-alphabetic filter but matches no
regions_and_departments record under the normalized comparison is kept with
all four added columns equal to the empty string, and the aggregation step
then has a group keyed by the empty-string regionName. -/
theorem claim_C10_thm (referendum : List BallotRow)
    (rad : List RegionDepartmentRecord) (b : BallotRow) (hb : b ∈ referendum)
    (halpha : pyIsAlpha b.departmentCode = false)
    (hno : ∀ rec ∈ rad, normalizeCode rec.code_dep ≠ b.departmentCode) :
    (⟨b, "", "", "", ""⟩ : EnrichedBallotRow)
        ∈ mergeReferendumAndAreas referendum rad
    ∧ "" ∈ (computeReferendumResultByRegions
          (mergeReferendumAndAreas referendum rad)).map (·.name_reg) := by
  have hmem : (⟨b, "", "", "", ""⟩ : EnrichedBallotRow)
      ∈ mergeReferendumAndAreas referendum rad := by
    rw [mergeReferendumAndAreas_eq_map]
    have hbf : b ∈ referendum.filter fun b => !pyIsAlpha b.departmentCode :=
      List.mem_filter.mpr ⟨hb, by simp [halpha]⟩
    have himg : finalizeRecord rad (initEnriched b)
        = (⟨b, "", "", "", ""⟩ : EnrichedBallotRow) :=
      finalizeRecord_no_match rad (initEnriched b) fun rec hrec => hno rec hrec
    exact himg ▸ List.mem_map_of_mem _ hbf
  refine ⟨hmem, ?_⟩
  rw [compute_map_name]
  exact (mem_groupKeys _ "").mpr
    (List.mem_map.mpr ⟨⟨b, "", "", "", ""⟩, hmem, rfl⟩)

/-- C10 witness: a numeric code matching no record, at concrete tables. -/
theorem claim_C10_witness :
    (⟨⟨"98", "Nouvelle-Calédonie", "1", "Nouméa", 10, 2, 1, 4, 3⟩,
        "", "", "", ""⟩ : EnrichedBallotRow)
        ∈ mergeReferendumAndAreas
            [⟨"98", "Nouvelle-Calédonie", "1", "Nouméa", 10, 2, 1, 4, 3⟩]
            [⟨"84", "Auvergne-Rhône-Alpes", "01", "Ain"⟩]
    ∧ "" ∈ (computeReferendumResultByRegions
          (mergeReferendumAndAreas
            [⟨"98", "Nouvelle-Calédonie", "1", "Nouméa", 10, 2, 1, 4, 3⟩]
            [⟨"84", "Auvergne-Rhône-Alpes", "01", "Ain"⟩])).map (·.name_reg) :=
  claim_C10_thm
    [⟨"98", "Nouvelle-Calédonie", "1", "Nouméa", 10, 2, 1, 4, 3⟩]
    [⟨"84", "Auvergne-Rhône-Alpes", "01", "Ain"⟩]
    ⟨"98", "Nouvelle-Calédonie", "1", "Nouméa", 10, 2, 1, 4, 3⟩
    (by decide) (by decide) (by decide)
